/-
Verification of the covidcast `database.py` staleness-tracking and
direction-recomputation operations, and of the `csv_to_database.py`
ingest driver contract.

The `covidcast` table is embedded as a `List Row`.  A table row carries the
six-column composite key plus the payload and freshness fields; the
auto-increment surrogate id is unused by the logic and omitted.  Numeric
payloads (`value`, `stderr`, `sample_size`) are modelled as integers since
no verified property involves real arithmetic on them; `direction` is a
nullable integer.  The SQL clock `UNIX_TIMESTAMP(NOW())` is passed in
explicitly as a `now : Nat` parameter.
-/
import Mathlib

namespace Covidcast

/-- The six-column composite key of the `covidcast` table. -/
structure RowKey where
  source : String
  signal : String
  time_type : String
  geo_type : String
  time_value : Int
  geo_value : String
deriving DecidableEq

/-- One row of the `covidcast` table (surrogate id omitted). -/
structure Row where
  key : RowKey
  value : Int
  stderr : Option Int
  sample_size : Option Int
  timestamp1 : Nat
  timestamp2 : Nat
  direction : Option Int
deriving DecidableEq

/-- `Database.count_all_rows`: `SELECT count(1) FROM covidcast`. -/
def count_all_rows (db : List Row) : Nat :=
  db.length

/--
`Database.insert_or_update`: `INSERT INTO covidcast VALUES (0, ..., UNIX_TIMESTAMP(NOW()),
value, stderr, sample_size, 0, NULL) ON DUPLICATE KEY UPDATE timestamp1, value, stderr,
sample_size`.  A fresh row gets `timestamp1 = now`, `timestamp2 = 0`, `direction = NULL`;
a duplicate key updates exactly `timestamp1`, `value`, `stderr`, `sample_size`.
-/
def insert_or_update (db : List Row) (now : Nat) (source signal time_type geo_type : String)
    (time_value : Int) (geo_value : String) (value : Int) (stderr sample_size : Option Int) :
    List Row :=
  let k : RowKey := ⟨source, signal, time_type, geo_type, time_value, geo_value⟩
  if db.any fun r => decide (r.key = k) then
    db.map fun r =>
      if r.key = k then
        { r with timestamp1 := now, value := value, stderr := stderr,
                 sample_size := sample_size }
      else r
  else
    db ++ [{ key := k, value := value, stderr := stderr, sample_size := sample_size,
             timestamp1 := now, timestamp2 := 0, direction := none }]

/-- Point read of the unique row holding a key (models a `SELECT` by full key). -/
def find_row (db : List Row) (k : RowKey) : Option Row :=
  db.find? fun r => decide (r.key = k)

/-- The five columns equated by `JOIN ... USING (source, signal, time_type, geo_type,
geo_value)`: membership in the same time-series. -/
def sameSeries (a b : RowKey) : Prop :=
  a.source = b.source ∧ a.signal = b.signal ∧ a.time_type = b.time_type ∧
  a.geo_type = b.geo_type ∧ a.geo_value = b.geo_value

instance (a b : RowKey) : Decidable (sameSeries a b) := by
  unfold sameSeries; exact inferInstance

/-- `MAX(timestamp1)` over a result group (`0` on an empty group, which never
arises for the groups actually formed by the queries below). -/
def maxT1 (rows : List Row) : Nat :=
  rows.foldl (fun m x => max m x.timestamp1) 0

/-- `MIN(timestamp2)` over a nonempty result group. -/
def minT2 : List Row → Nat
  | [] => 0
  | r :: rs => rs.foldl (fun m x => min m x.timestamp2) r.timestamp2

/-- `MIN(time_value)` over a nonempty result group. -/
def minDay : List Row → Int
  | [] => 0
  | r :: rs => rs.foldl (fun m x => min m x.key.time_value) r.key.time_value

/-- `MAX(time_value)` over a nonempty result group. -/
def maxDay : List Row → Int
  | [] => 0
  | r :: rs => rs.foldl (fun m x => max m x.key.time_value) r.key.time_value

/-- The join partners of row `c` in `get_rows_with_stale_direction`: rows `d` of the same
series with `DATEDIFF(c.time_value, d.time_value) BETWEEN 0 AND 6`. -/
def windowRows (db : List Row) (c : Row) : List Row :=
  db.filter fun d => decide (sameSeries c.key d.key ∧
    0 ≤ c.key.time_value - d.key.time_value ∧ c.key.time_value - d.key.time_value ≤ 6)

/-- The `WHERE`/`HAVING` condition of `get_rows_with_stale_direction` for a group headed
by row `c`: `c.time_type = 'day'` and `MAX(d.timestamp1) > c.timestamp2`. -/
def isStaleRow (db : List Row) (c : Row) : Bool :=
  decide (c.key.time_type = "day" ∧ c.timestamp2 < maxT1 (windowRows db c))

/-- One result row of `get_rows_with_stale_direction`; the six selected key columns are
bundled as a `RowKey`. -/
structure StaleRowResult where
  key : RowKey
  timestamp2 : Nat
  max_timestamp1 : Nat
  support : Nat
deriving DecidableEq

/-- The group rows of `get_rows_with_stale_direction` before `ORDER BY rand()` and
`LIMIT`.  The table key is unique, so each table row heads exactly one `GROUP BY`
group. -/
def staleRowCandidates (db : List Row) : List StaleRowResult :=
  (db.filter (isStaleRow db)).map fun c =>
    { key := c.key, timestamp2 := c.timestamp2,
      max_timestamp1 := maxT1 (windowRows db c), support := (windowRows db c).length }

/-- `Database.get_rows_with_stale_direction`: the candidate groups, in the random order
produced by `ORDER BY rand()` (modelled by the `shuffle` parameter), capped by
`LIMIT 10000`. -/
def get_rows_with_stale_direction (db : List Row)
    (shuffle : List StaleRowResult → List StaleRowResult) : List StaleRowResult :=
  (shuffle (staleRowCandidates db)).take 10000

/-- The `WHERE` clause of `get_rows_to_compute_direction`: exact match on
`source`, `signal`, `geo_type`, `geo_value`, `time_type = 'day'`, and
`DATEDIFF(time_value, target) BETWEEN -6 AND 0`. -/
def windowMatch (source signal geo_type : String) (target : Int) (geo_value : String)
    (r : Row) : Prop :=
  r.key.source = source ∧ r.key.signal = signal ∧ r.key.time_type = "day" ∧
  r.key.geo_type = geo_type ∧ r.key.geo_value = geo_value ∧
  -6 ≤ r.key.time_value - target ∧ r.key.time_value - target ≤ 0

instance (source signal geo_type : String) (target : Int) (geo_value : String) (r : Row) :
    Decidable (windowMatch source signal geo_type target geo_value r) := by
  unfold windowMatch; exact inferInstance

/-- The comparison behind `ORDER BY time_value ASC`. -/
def rowLE (a b : Row) : Prop :=
  a.key.time_value ≤ b.key.time_value

instance : DecidableRel rowLE := fun a b => Int.decLe a.key.time_value b.key.time_value

instance : IsTotal Row rowLE :=
  ⟨fun a b => Int.le_total a.key.time_value b.key.time_value⟩

instance : IsTrans Row rowLE :=
  ⟨fun _ _ _ hab hbc => Int.le_trans hab hbc⟩

/-- `Database.get_rows_to_compute_direction`: `SELECT DATEDIFF(time_value, target),
value ... ORDER BY time_value ASC` over the trailing 7-day window of one series. -/
def get_rows_to_compute_direction (db : List Row) (source signal geo_type : String)
    (time_value : Int) (geo_value : String) : List (Int × Int) :=
  (List.insertionSort rowLE
      (db.filter fun r => decide (windowMatch source signal geo_type time_value geo_value r))).map
    fun r => (r.key.time_value - time_value, r.value)

/-- `Database.update_direction`: `UPDATE covidcast SET timestamp2 =
UNIX_TIMESTAMP(NOW()), direction = %s WHERE` the full six-column key matches. -/
def update_direction (db : List Row) (now : Nat) (source signal time_type geo_type : String)
    (time_value : Int) (geo_value : String) (direction : Option Int) : List Row :=
  db.map fun r =>
    if r.key = (⟨source, signal, time_type, geo_type, time_value, geo_value⟩ : RowKey) then
      { r with timestamp2 := now, direction := direction }
    else r

/-- The `GROUP BY (source, signal, time_type, geo_type, geo_value)` key of
`get_keys_with_potentially_stale_direction`. -/
structure GroupKey where
  source : String
  signal : String
  time_type : String
  geo_type : String
  geo_value : String
deriving DecidableEq

def groupKeyOf (r : Row) : GroupKey :=
  ⟨r.key.source, r.key.signal, r.key.time_type, r.key.geo_type, r.key.geo_value⟩

/-- The rows passing the query's `WHERE time_type = 'day'` filter. -/
def dayRows (db : List Row) : List Row :=
  db.filter fun r => decide (r.key.time_type = "day")

/-- The day-type rows forming the `GROUP BY` group of key `g`. -/
def groupRows (db : List Row) (g : GroupKey) : List Row :=
  (dayRows db).filter fun r => decide (groupKeyOf r = g)

/-- One result row of `get_keys_with_potentially_stale_direction` (`time_type` is not
selected; it is constantly `'day'` under the `WHERE` clause). -/
structure SeriesResult where
  source : String
  signal : String
  geo_type : String
  geo_value : String
  max_timestamp1 : Nat
  min_timestamp2 : Nat
  min_day : Int
  max_day : Int
  series_length : Nat
deriving DecidableEq

/-- `Database.get_keys_with_potentially_stale_direction`: group the day-type rows by
series and keep the groups with `MAX(timestamp1) > MIN(timestamp2)`. -/
def get_keys_with_potentially_stale_direction (db : List Row) : List SeriesResult :=
  (((dayRows db).map groupKeyOf).dedup.filter fun g =>
      decide (minT2 (groupRows db g) < maxT1 (groupRows db g))).map fun g =>
    { source := g.source, signal := g.signal, geo_type := g.geo_type,
      geo_value := g.geo_value, max_timestamp1 := maxT1 (groupRows db g),
      min_timestamp2 := minT2 (groupRows db g), min_day := minDay (groupRows db g),
      max_day := maxDay (groupRows db g), series_length := (groupRows db g).length }

/-- A series identifier as selected by the series-level staleness query: the four
key columns other than `time_type` and `time_value`. -/
structure SeriesKey where
  source : String
  signal : String
  geo_type : String
  geo_value : String
deriving DecidableEq

/-- The day-type rows of the series `k`. -/
def seriesDayRows (db : List Row) (k : SeriesKey) : List Row :=
  db.filter fun r => decide (r.key.time_type = "day" ∧ r.key.source = k.source ∧
    r.key.signal = k.signal ∧ r.key.geo_type = k.geo_type ∧ r.key.geo_value = k.geo_value)

/-- The `WHERE` clause of `update_timeseries_timestamp2`: the five series columns
match (every `time_value` of the series is affected). -/
def seriesMatch (source signal time_type geo_type geo_value : String) (r : Row) : Prop :=
  r.key.source = source ∧ r.key.signal = signal ∧ r.key.time_type = time_type ∧
  r.key.geo_type = geo_type ∧ r.key.geo_value = geo_value

instance (source signal time_type geo_type geo_value : String) (r : Row) :
    Decidable (seriesMatch source signal time_type geo_type geo_value r) := by
  unfold seriesMatch; exact inferInstance

/-- `Database.update_timeseries_timestamp2`: `UPDATE covidcast SET timestamp2 =
UNIX_TIMESTAMP(NOW()) WHERE` the five series columns match. -/
def update_timeseries_timestamp2 (db : List Row) (now : Nat)
    (source signal time_type geo_type geo_value : String) : List Row :=
  db.map fun r =>
    if seriesMatch source signal time_type geo_type geo_value r then
      { r with timestamp2 := now }
    else r

/-- A database connection mid-transaction: the durable state and the state including
uncommitted changes. -/
structure Connection where
  committed : List Row
  pending : List Row

/-- `Database.disconnect(commit)`: commit makes the pending state durable, otherwise
the transaction is rolled back and the durable state is unchanged. -/
def disconnect (conn : Connection) (commit : Bool) : List Row :=
  if commit then conn.pending else conn.committed

/-- Outcome of running the top-level driver: the durable database state after
`disconnect`, the commit flag passed to `disconnect`, and whether the ingest step's
exception propagated. -/
structure MainResult where
  final : List Row
  commitFlag : Bool
  raised : Bool

/-- Modelled from the spec: the top-level driver `main` of `csv_to_database.py` is not
under `src/` (only its unit tests are).  Per the spec's error-handling design and the
tests, `main` connects, runs the ingest step, and disconnects; it commits exactly when
the ingest step raised no exception and test mode is off, and otherwise rolls back.
The ingest step is a parameter returning the pending database state and a success
flag (`false` models a raised exception, which `main` re-raises after rollback). -/
def main (test : Bool) (db : List Row) (ingest : List Row → List Row × Bool) : MainResult :=
  let step := ingest db
  let flag := step.2 && !test
  { final := disconnect ⟨db, step.1⟩ flag, commitFlag := flag, raised := !step.2 }

/-- One validated CSV data row as handed over by the CSV/validation collaborator. -/
structure CsvRow where
  geo_value : String
  value : String
  stderr : String
  sample_size : String
deriving DecidableEq

/-- The key tuple parsed from a CSV filename: (source, signal, time_type, geo_type,
time_value). -/
structure FileDetails where
  source : String
  signal : String
  time_type : String
  geo_type : String
  time_value : Int
deriving DecidableEq

/-- A CSV file as seen by the ingest pipeline: its directory, its name, the parsed
filename details (`none` when the filename could not be classified), and its rows
(`none` marks a row the validator rejected). -/
structure CsvFile where
  dir : String
  name : String
  details : Option FileDetails
  rows : List (Option CsvRow)
deriving DecidableEq

/-- The argument tuple of one `Database.insert_or_update` call issued by the ingest
pipeline. -/
structure UpsertCall where
  source : String
  signal : String
  time_type : String
  geo_type : String
  time_value : Int
  geo_value : String
  value : String
  stderr : String
  sample_size : String
deriving DecidableEq

/-- The argument tuple of one `archive_file` call handed to the archiving
collaborator: source directory, destination directory, filename, success flag. -/
structure ArchiveCall where
  path_src : String
  path_dst : String
  filename : String
  success : Bool
deriving DecidableEq

/-- Modelled from the spec: the per-file step of `scan_upload_archive` in
`csv_to_database.py`, which is not under `src/` (only its unit tests are).  Per the
spec's ingest-pipeline design and the tests: a file whose name could not be parsed is
archived under `failed/unknown` with no upserts; otherwise every valid row is
upserted (invalid rows are skipped but fail the file), and the file is archived under
`successful/<source>` when all rows were valid, else under `failed/<source>`. -/
def handle_file (data_dir : String) (f : CsvFile) : List UpsertCall × ArchiveCall :=
  match f.details with
  | none => ([], ⟨f.dir, data_dir ++ "/archive/failed/unknown", f.name, false⟩)
  | some d =>
    let calls := f.rows.filterMap fun o => o.map fun r =>
      ⟨d.source, d.signal, d.time_type, d.geo_type, d.time_value,
        r.geo_value, r.value, r.stderr, r.sample_size⟩
    let ok := f.rows.all Option.isSome
    let bucket := if ok then "successful" else "failed"
    (calls, ⟨f.dir, data_dir ++ "/archive/" ++ bucket ++ "/" ++ d.source, f.name, ok⟩)

/-- Modelled from the spec: `scan_upload_archive` of `csv_to_database.py` over a list
of discovered CSV files; returns the sequence of upsert calls and the sequence of
archive calls, in file order. -/
def scan_upload_archive (data_dir : String) (files : List CsvFile) :
    List UpsertCall × List ArchiveCall :=
  (files.flatMap fun f => (handle_file data_dir f).1,
   files.map fun f => (handle_file data_dir f).2)

/-! Test fixtures: the ingest scenario of the unit tests, and a two-row series used
to separate the series-level staleness aggregate from row-level staleness. -/

/-- Fixture: `a.csv`, three valid rows. -/
def fileA : CsvFile :=
  { dir := "path", name := "a.csv",
    details := some ⟨"src_a", "sig_a", "day", "hrr", 20200419⟩,
    rows := [some ⟨"a1", "a1", "a1", "a1"⟩, some ⟨"a2", "a2", "a2", "a2"⟩,
             some ⟨"a3", "a3", "a3", "a3"⟩] }

/-- Fixture: `b.csv`, three rows of which the second fails validation. -/
def fileB : CsvFile :=
  { dir := "path", name := "b.csv",
    details := some ⟨"src_b", "sig_b", "week", "msa", 202016⟩,
    rows := [some ⟨"b1", "b1", "b1", "b1"⟩, none, some ⟨"b3", "b3", "b3", "b3"⟩] }

/-- Fixture: `c.csv`, whose filename cannot be classified. -/
def fileC : CsvFile :=
  { dir := "path", name := "c.csv", details := none, rows := [] }

/-- Fixture: the ingest data directory name. -/
def dataDir : String := "data_dir"

/-- Fixture: a day-type row whose two timestamps are equal (individually fresh). -/
def cexRowA : Row :=
  { key := ⟨"src", "sig", "day", "county", 0, "geo"⟩, value := 1, stderr := none,
    sample_size := none, timestamp1 := 10, timestamp2 := 10, direction := none }

/-- Fixture: a second row of the same series, older timestamps, also individually
fresh. -/
def cexRowB : Row :=
  { key := ⟨"src", "sig", "day", "county", 1, "geo"⟩, value := 2, stderr := none,
    sample_size := none, timestamp1 := 5, timestamp2 := 5, direction := none }

/-- Fixture: a two-row series in which no row is individually stale although
`MAX(timestamp1) > MIN(timestamp2)` holds across the series. -/
def cexDb : List Row := [cexRowA, cexRowB]

/-- Fixture: a one-row store used to instantiate the universally quantified
theorems. -/
def witRow : Row :=
  { key := ⟨"wsrc", "wsig", "day", "county", 3, "wgeo"⟩, value := 7, stderr := some 1,
    sample_size := some 2, timestamp1 := 20, timestamp2 := 15, direction := some 0 }

/-- Fixture: the one-row store holding `witRow`. -/
def witDb : List Row := [witRow]

/-- Fixture: a clock value later than both timestamps of `witRow`. -/
def witNow : Nat := 99

/-! Helper lemmas about the fold-based SQL aggregates. -/

theorem foldl_max_init_le (f : Row → Nat) (rows : List Row) (init : Nat) :
    init ≤ rows.foldl (fun m x => max m (f x)) init := by
  induction rows generalizing init with
  | nil => exact Nat.le_refl _
  | cons a t ih => exact Nat.le_trans (Nat.le_max_left _ _) (ih _)

theorem le_foldl_max_of_mem (f : Row → Nat) {rows : List Row} {r : Row} (h : r ∈ rows) :
    ∀ init, f r ≤ rows.foldl (fun m x => max m (f x)) init := by
  induction rows with
  | nil => cases h
  | cons a t ih =>
    intro init
    rcases List.mem_cons.mp h with h1 | h2
    · subst h1; exact Nat.le_trans (Nat.le_max_right _ _) (foldl_max_init_le f t _)
    · exact ih h2 _

theorem le_maxT1_of_mem {rows : List Row} {r : Row} (h : r ∈ rows) :
    r.timestamp1 ≤ maxT1 rows :=
  le_foldl_max_of_mem Row.timestamp1 h 0

theorem foldl_min_le_init (f : Row → Nat) (rows : List Row) (init : Nat) :
    rows.foldl (fun m x => min m (f x)) init ≤ init := by
  induction rows generalizing init with
  | nil => exact Nat.le_refl _
  | cons a t ih => exact Nat.le_trans (ih _) (Nat.min_le_left _ _)

theorem foldl_min_le_of_mem (f : Row → Nat) {rows : List Row} {r : Row} (h : r ∈ rows) :
    ∀ init, rows.foldl (fun m x => min m (f x)) init ≤ f r := by
  induction rows with
  | nil => cases h
  | cons a t ih =>
    intro init
    rcases List.mem_cons.mp h with h1 | h2
    · subst h1; exact Nat.le_trans (foldl_min_le_init f t _) (Nat.min_le_right _ _)
    · exact ih h2 _

theorem minT2_le_of_mem {rows : List Row} {r : Row} (h : r ∈ rows) :
    minT2 rows ≤ r.timestamp2 := by
  match rows, h with
  | a :: t, h =>
    rcases List.mem_cons.mp h with h1 | h2
    · subst h1; exact foldl_min_le_init Row.timestamp2 t _
    · exact foldl_min_le_of_mem Row.timestamp2 h2 _

/-- `find?` commutes with a `map` that preserves the tested predicate. -/
theorem find?_map_congr {α β : Type} (f : α → β) (p : α → Bool) (q : β → Bool)
    (hpq : ∀ x, q (f x) = p x) (l : List α) : (l.map f).find? q = (l.find? p).map f := by
  induction l with
  | nil => rfl
  | cons a t ih =>
    by_cases hp : p a = true
    · have hq : q (f a) = true := by rw [hpq]; exact hp
      rw [List.map_cons, List.find?_cons_of_pos _ hq, List.find?_cons_of_pos _ hp,
          Option.map_some']
    · have hq : ¬ q (f a) = true := by rw [hpq]; exact hp
      rw [List.map_cons, List.find?_cons_of_neg _ hq, List.find?_cons_of_neg _ hp, ih]

/-- C7: the top-level driver commits exactly on clean completion with test mode off;
on an ingest exception or in test mode the transaction is rolled back, leaving the
durable state unchanged, and the exception propagates. -/
theorem main_commit_policy (test : Bool) (db : List Row)
    (ingest : List Row → List Row × Bool) :
    (main test db ingest).commitFlag = ((ingest db).2 && !test) ∧
    (main test db ingest).raised = (!(ingest db).2) ∧
    (main test db ingest).final =
      (if (ingest db).2 && !test then (ingest db).1 else db) :=
  ⟨rfl, rfl, rfl⟩

/-- C8: on the three-file fixture (3 valid rows, 3 rows with one invalid, one
unparseable filename) the ingest pipeline issues exactly the five upserts for the
valid rows in file order and archives the files under `successful/src_a`,
`failed/src_b` and `failed/unknown` respectively. -/
theorem scan_upload_archive_scenario :
    scan_upload_archive dataDir [fileA, fileB, fileC] =
      ([⟨"src_a", "sig_a", "day", "hrr", 20200419, "a1", "a1", "a1", "a1"⟩,
        ⟨"src_a", "sig_a", "day", "hrr", 20200419, "a2", "a2", "a2", "a2"⟩,
        ⟨"src_a", "sig_a", "day", "hrr", 20200419, "a3", "a3", "a3", "a3"⟩,
        ⟨"src_b", "sig_b", "week", "msa", 202016, "b1", "b1", "b1", "b1"⟩,
        ⟨"src_b", "sig_b", "week", "msa", 202016, "b3", "b3", "b3", "b3"⟩],
       [⟨"path", "data_dir/archive/successful/src_a", "a.csv", true⟩,
        ⟨"path", "data_dir/archive/failed/src_b", "b.csv", false⟩,
        ⟨"path", "data_dir/archive/failed/unknown", "c.csv", false⟩]) := by
  rfl

/-- Indexing into a mapped list (used to state the frame conditions of the two
`UPDATE` statements). -/
theorem get_map_row (f : Row → Row) (db : List Row) (i : Nat) (hi : i < db.length)
    (hj : i < (db.map f).length) : (db.map f).get ⟨i, hj⟩ = f (db.get ⟨i, hi⟩) := by
  simp [List.get_eq_getElem, List.getElem_map]

/-- C3: `update_timeseries_timestamp2` sets `timestamp2 = now` on every row of the
named series — whether or not it was individually fresh — changing nothing else on
those rows, and leaves every row outside the series untouched. -/
theorem mark_series_confirmed_spec (db : List Row) (now : Nat)
    (source signal time_type geo_type geo_value : String) (i : Nat) (hi : i < db.length) :
    ∃ hj : i <
        (update_timeseries_timestamp2 db now source signal time_type geo_type geo_value).length,
      (seriesMatch source signal time_type geo_type geo_value (db.get ⟨i, hi⟩) →
        (update_timeseries_timestamp2 db now source signal time_type geo_type
            geo_value).get ⟨i, hj⟩ = { db.get ⟨i, hi⟩ with timestamp2 := now }) ∧
      (¬ seriesMatch source signal time_type geo_type geo_value (db.get ⟨i, hi⟩) →
        (update_timeseries_timestamp2 db now source signal time_type geo_type
            geo_value).get ⟨i, hj⟩ = db.get ⟨i, hi⟩) := by
  have hkey : update_timeseries_timestamp2 db now source signal time_type geo_type geo_value =
      db.map (fun r => if seriesMatch source signal time_type geo_type geo_value r then
        { r with timestamp2 := now } else r) := rfl
  have hj : i <
      (update_timeseries_timestamp2 db now source signal time_type geo_type geo_value).length := by
    rw [hkey, List.length_map]; exact hi
  have hget := get_map_row
    (fun r => if seriesMatch source signal time_type geo_type geo_value r then
      { r with timestamp2 := now } else r) db i hi (by rw [List.length_map]; exact hi)
  refine ⟨hj, fun hm => ?_, fun hm => ?_⟩
  · rw [show (update_timeseries_timestamp2 db now source signal time_type geo_type
        geo_value).get ⟨i, hj⟩ = _ from hget]
    exact if_pos hm
  · rw [show (update_timeseries_timestamp2 db now source signal time_type geo_type
        geo_value).get ⟨i, hj⟩ = _ from hget]
    exact if_neg hm

/-- C3 witness: the series-wide confirmation applied to the one-row store. -/
theorem mark_series_confirmed_witness :
    ∃ hj : 0 < (update_timeseries_timestamp2 witDb witNow witRow.key.source witRow.key.signal
        witRow.key.time_type witRow.key.geo_type witRow.key.geo_value).length,
      (seriesMatch witRow.key.source witRow.key.signal witRow.key.time_type witRow.key.geo_type
          witRow.key.geo_value (witDb.get ⟨0, by decide⟩) →
        (update_timeseries_timestamp2 witDb witNow witRow.key.source witRow.key.signal
            witRow.key.time_type witRow.key.geo_type witRow.key.geo_value).get ⟨0, hj⟩ =
          { witDb.get ⟨0, by decide⟩ with timestamp2 := witNow }) ∧
      (¬ seriesMatch witRow.key.source witRow.key.signal witRow.key.time_type witRow.key.geo_type
          witRow.key.geo_value (witDb.get ⟨0, by decide⟩) →
        (update_timeseries_timestamp2 witDb witNow witRow.key.source witRow.key.signal
            witRow.key.time_type witRow.key.geo_type witRow.key.geo_value).get ⟨0, hj⟩ =
          witDb.get ⟨0, by decide⟩) :=
  mark_series_confirmed_spec witDb witNow witRow.key.source witRow.key.signal
    witRow.key.time_type witRow.key.geo_type witRow.key.geo_value 0 (by decide)

/-- C5: `update_direction` sets `direction` and `timestamp2 = now` on exactly the rows
whose full six-column key matches the target — under key uniqueness, a single row —
leaving their other fields and every other row untouched. -/
theorem update_direction_spec (db : List Row) (now : Nat)
    (source signal time_type geo_type : String) (time_value : Int) (geo_value : String)
    (dir : Option Int) (hkeys : (db.map Row.key).Nodup) (i : Nat) (hi : i < db.length) :
    ∃ hj : i <
        (update_direction db now source signal time_type geo_type time_value geo_value dir).length,
      ((db.get ⟨i, hi⟩).key =
          (⟨source, signal, time_type, geo_type, time_value, geo_value⟩ : RowKey) →
        (update_direction db now source signal time_type geo_type time_value geo_value
            dir).get ⟨i, hj⟩ =
          { db.get ⟨i, hi⟩ with timestamp2 := now, direction := dir }) ∧
      ((db.get ⟨i, hi⟩).key ≠
          (⟨source, signal, time_type, geo_type, time_value, geo_value⟩ : RowKey) →
        (update_direction db now source signal time_type geo_type time_value geo_value
            dir).get ⟨i, hj⟩ = db.get ⟨i, hi⟩) ∧
      (∀ j, ∀ hj2 : j < db.length,
        (db.get ⟨j, hj2⟩).key =
          (⟨source, signal, time_type, geo_type, time_value, geo_value⟩ : RowKey) →
        (db.get ⟨i, hi⟩).key =
          (⟨source, signal, time_type, geo_type, time_value, geo_value⟩ : RowKey) →
        j = i) := by
  have hkey : update_direction db now source signal time_type geo_type time_value geo_value dir =
      db.map (fun r =>
        if r.key = (⟨source, signal, time_type, geo_type, time_value, geo_value⟩ : RowKey) then
          { r with timestamp2 := now, direction := dir } else r) := rfl
  have hj : i <
      (update_direction db now source signal time_type geo_type time_value geo_value dir).length := by
    rw [hkey, List.length_map]; exact hi
  have hget := get_map_row
    (fun r =>
      if r.key = (⟨source, signal, time_type, geo_type, time_value, geo_value⟩ : RowKey) then
        { r with timestamp2 := now, direction := dir } else r) db i hi
    (by rw [List.length_map]; exact hi)
  refine ⟨hj, fun hm => ?_, fun hm => ?_, fun j hj2 hkj hki => ?_⟩
  · rw [show (update_direction db now source signal time_type geo_type time_value geo_value
        dir).get ⟨i, hj⟩ = _ from hget]
    exact if_pos hm
  · rw [show (update_direction db now source signal time_type geo_type time_value geo_value
        dir).get ⟨i, hj⟩ = _ from hget]
    exact if_neg hm
  · have hmap : (db.map Row.key).get ⟨j, by rw [List.length_map]; exact hj2⟩ =
        (db.map Row.key).get ⟨i, by rw [List.length_map]; exact hi⟩ := by
      simp only [List.get_eq_getElem, List.getElem_map]
      rw [show db[j].key = (db.get ⟨j, hj2⟩).key from rfl,
          show db[i].key = (db.get ⟨i, hi⟩).key from rfl, hkj, hki]
    exact congrArg Fin.val (hkeys.get_inj_iff.mp hmap)

/-- C5 witness: the direction write-back applied to the one-row store. -/
theorem update_direction_witness :
    ∃ hj : 0 < (update_direction witDb witNow witRow.key.source witRow.key.signal
        witRow.key.time_type witRow.key.geo_type witRow.key.time_value witRow.key.geo_value
        (some 1)).length,
      ((witDb.get ⟨0, by decide⟩).key =
          (⟨witRow.key.source, witRow.key.signal, witRow.key.time_type, witRow.key.geo_type,
            witRow.key.time_value, witRow.key.geo_value⟩ : RowKey) →
        (update_direction witDb witNow witRow.key.source witRow.key.signal witRow.key.time_type
            witRow.key.geo_type witRow.key.time_value witRow.key.geo_value
            (some 1)).get ⟨0, hj⟩ =
          { witDb.get ⟨0, by decide⟩ with timestamp2 := witNow, direction := some 1 }) ∧
      ((witDb.get ⟨0, by decide⟩).key ≠
          (⟨witRow.key.source, witRow.key.signal, witRow.key.time_type, witRow.key.geo_type,
            witRow.key.time_value, witRow.key.geo_value⟩ : RowKey) →
        (update_direction witDb witNow witRow.key.source witRow.key.signal witRow.key.time_type
            witRow.key.geo_type witRow.key.time_value witRow.key.geo_value
            (some 1)).get ⟨0, hj⟩ = witDb.get ⟨0, by decide⟩) ∧
      (∀ j, ∀ hj2 : j < witDb.length,
        (witDb.get ⟨j, hj2⟩).key =
          (⟨witRow.key.source, witRow.key.signal, witRow.key.time_type, witRow.key.geo_type,
            witRow.key.time_value, witRow.key.geo_value⟩ : RowKey) →
        (witDb.get ⟨0, by decide⟩).key =
          (⟨witRow.key.source, witRow.key.signal, witRow.key.time_type, witRow.key.geo_type,
            witRow.key.time_value, witRow.key.geo_value⟩ : RowKey) →
        j = 0) :=
  update_direction_spec witDb witNow witRow.key.source witRow.key.signal witRow.key.time_type
    witRow.key.geo_type witRow.key.time_value witRow.key.geo_value (some 1) (by decide) 0
    (by decide)

/-- C9: inserting a key not yet present creates the row with `direction = NULL`,
`timestamp2 = 0` and `timestamp1 = now`, so the new row is born stale
(`timestamp1 > timestamp2`); the pre-existing rows all survive. -/
theorem upsert_insert_fresh (db : List Row) (now : Nat)
    (source signal time_type geo_type : String) (time_value : Int) (geo_value : String)
    (v : Int) (s ss : Option Int)
    (habsent : ∀ x ∈ db,
      x.key ≠ (⟨source, signal, time_type, geo_type, time_value, geo_value⟩ : RowKey))
    (hnow : 0 < now) :
    ∃ r ∈ insert_or_update db now source signal time_type geo_type time_value geo_value v s ss,
      r.key = (⟨source, signal, time_type, geo_type, time_value, geo_value⟩ : RowKey) ∧
      r.direction = none ∧ r.timestamp2 = 0 ∧ r.timestamp1 = now ∧
      r.timestamp2 < r.timestamp1 ∧
      ∀ x ∈ db,
        x ∈ insert_or_update db now source signal time_type geo_type time_value geo_value v s ss := by
  have hany : (db.any fun r =>
      decide (r.key = (⟨source, signal, time_type, geo_type, time_value, geo_value⟩ : RowKey)))
      = false := by
    rw [List.any_eq_false]
    intro x hx
    simpa using habsent x hx
  have hres : insert_or_update db now source signal time_type geo_type time_value geo_value v s ss
      = db ++ [{ key := ⟨source, signal, time_type, geo_type, time_value, geo_value⟩, value := v,
                 stderr := s, sample_size := ss, timestamp1 := now, timestamp2 := 0,
                 direction := none }] := by
    simp only [insert_or_update, hany, Bool.false_eq_true, if_false]
  refine ⟨_, by rw [hres]; exact List.mem_append_right _ (List.mem_singleton_self _),
    rfl, rfl, rfl, rfl, hnow, ?_⟩
  intro x hx
  rw [hres]
  exact List.mem_append_left _ hx

/-- C9 witness: a fresh key inserted into the one-row store is born stale. -/
theorem upsert_insert_fresh_witness :
    ∃ r ∈ insert_or_update witDb witNow cexRowA.key.source cexRowA.key.signal
        cexRowA.key.time_type cexRowA.key.geo_type cexRowA.key.time_value cexRowA.key.geo_value
        5 none none,
      r.key = (⟨cexRowA.key.source, cexRowA.key.signal, cexRowA.key.time_type,
        cexRowA.key.geo_type, cexRowA.key.time_value, cexRowA.key.geo_value⟩ : RowKey) ∧
      r.direction = none ∧ r.timestamp2 = 0 ∧ r.timestamp1 = witNow ∧
      r.timestamp2 < r.timestamp1 ∧
      ∀ x ∈ witDb, x ∈ insert_or_update witDb witNow cexRowA.key.source cexRowA.key.signal
        cexRowA.key.time_type cexRowA.key.geo_type cexRowA.key.time_value cexRowA.key.geo_value
        5 none none :=
  upsert_insert_fresh witDb witNow cexRowA.key.source cexRowA.key.signal cexRowA.key.time_type
    cexRowA.key.geo_type cexRowA.key.time_value cexRowA.key.geo_value 5 none none (by decide)
    (by decide)

/-- C4: upserting an existing key overwrites `value`, `stderr`, `sample_size` and sets
`timestamp1 = now` without error; the row's `direction` and `timestamp2` are
untouched, a subsequent point read returns the new values with `timestamp1` strictly
increased, and rows under other keys are untouched. -/
theorem upsert_overwrite_spec (db : List Row) (now : Nat)
    (source signal time_type geo_type : String) (time_value : Int) (geo_value : String)
    (v : Int) (s ss : Option Int) (r : Row)
    (hr : find_row db ⟨source, signal, time_type, geo_type, time_value, geo_value⟩ = some r)
    (hnow : r.timestamp1 < now) :
    ∃ r2, find_row
        (insert_or_update db now source signal time_type geo_type time_value geo_value v s ss)
        ⟨source, signal, time_type, geo_type, time_value, geo_value⟩ = some r2 ∧
      r2.value = v ∧ r2.stderr = s ∧ r2.sample_size = ss ∧ r2.timestamp1 = now ∧
      r2.direction = r.direction ∧ r2.timestamp2 = r.timestamp2 ∧
      r.timestamp1 < r2.timestamp1 ∧
      ∀ x ∈ db,
        x.key ≠ (⟨source, signal, time_type, geo_type, time_value, geo_value⟩ : RowKey) →
        x ∈ insert_or_update db now source signal time_type geo_type time_value geo_value v s ss := by
  have hrk : r.key = (⟨source, signal, time_type, geo_type, time_value, geo_value⟩ : RowKey) := by
    have := List.find?_some hr
    simpa using this
  have hrmem : r ∈ db := List.mem_of_find?_eq_some hr
  have hany : (db.any fun x =>
      decide (x.key = (⟨source, signal, time_type, geo_type, time_value, geo_value⟩ : RowKey)))
      = true :=
    List.any_eq_true.mpr ⟨r, hrmem, by simpa using hrk⟩
  have hres : insert_or_update db now source signal time_type geo_type time_value geo_value v s ss
      = db.map (fun x =>
        if x.key = (⟨source, signal, time_type, geo_type, time_value, geo_value⟩ : RowKey) then
          { x with timestamp1 := now, value := v, stderr := s, sample_size := ss } else x) := by
    simp only [insert_or_update, hany, if_true]
  have hfind : find_row (insert_or_update db now source signal time_type geo_type time_value
        geo_value v s ss) ⟨source, signal, time_type, geo_type, time_value, geo_value⟩ =
      (db.find? fun x =>
        decide (x.key = (⟨source, signal, time_type, geo_type, time_value, geo_value⟩ : RowKey))).map
        (fun x =>
          if x.key = (⟨source, signal, time_type, geo_type, time_value, geo_value⟩ : RowKey) then
            { x with timestamp1 := now, value := v, stderr := s, sample_size := ss } else x) := by
    have hcong := find?_map_congr
      (fun x =>
        if x.key = (⟨source, signal, time_type, geo_type, time_value, geo_value⟩ : RowKey) then
          { x with timestamp1 := now, value := v, stderr := s, sample_size := ss } else x)
      (fun x =>
        decide (x.key = (⟨source, signal, time_type, geo_type, time_value, geo_value⟩ : RowKey)))
      (fun x =>
        decide (x.key = (⟨source, signal, time_type, geo_type, time_value, geo_value⟩ : RowKey)))
      (fun x => by
        by_cases hx :
          x.key = (⟨source, signal, time_type, geo_type, time_value, geo_value⟩ : RowKey) <;>
          simp [hx]) db
    rw [hres]
    exact hcong
  refine ⟨{ r with timestamp1 := now, value := v, stderr := s, sample_size := ss }, ?_,
    rfl, rfl, rfl, rfl, rfl, rfl, hnow, ?_⟩
  · rw [hfind, show (db.find? fun x =>
        decide (x.key = (⟨source, signal, time_type, geo_type, time_value, geo_value⟩ : RowKey)))
        = some r from hr]
    simp [hrk]
  · intro x hx hne
    rw [hres]
    exact List.mem_map.mpr ⟨x, hx, by simp [hne]⟩

/-- C4 witness: overwriting the one stored row refreshes the payload and
`timestamp1` while keeping `direction` and `timestamp2`. -/
theorem upsert_overwrite_witness :
    ∃ r2, find_row
        (insert_or_update witDb witNow witRow.key.source witRow.key.signal witRow.key.time_type
          witRow.key.geo_type witRow.key.time_value witRow.key.geo_value 8 none none)
        ⟨witRow.key.source, witRow.key.signal, witRow.key.time_type, witRow.key.geo_type,
          witRow.key.time_value, witRow.key.geo_value⟩ = some r2 ∧
      r2.value = 8 ∧ r2.stderr = none ∧ r2.sample_size = none ∧ r2.timestamp1 = witNow ∧
      r2.direction = witRow.direction ∧ r2.timestamp2 = witRow.timestamp2 ∧
      witRow.timestamp1 < r2.timestamp1 ∧
      ∀ x ∈ witDb,
        x.key ≠ (⟨witRow.key.source, witRow.key.signal, witRow.key.time_type,
          witRow.key.geo_type, witRow.key.time_value, witRow.key.geo_value⟩ : RowKey) →
        x ∈ insert_or_update witDb witNow witRow.key.source witRow.key.signal
          witRow.key.time_type witRow.key.geo_type witRow.key.time_value witRow.key.geo_value
          8 none none :=
  upsert_overwrite_spec witDb witNow witRow.key.source witRow.key.signal witRow.key.time_type
    witRow.key.geo_type witRow.key.time_value witRow.key.geo_value 8 none none witRow
    (by decide) (by decide)

/-- C6: the direction-computation window query returns exactly the (offset, value)
pairs of the day-type rows of the addressed series whose `time_value` lies in the
trailing 7-day window (offsets −6..0), ordered by `time_value` ascending. -/
theorem compute_direction_window_spec (db : List Row) (source signal geo_type : String)
    (time_value : Int) (geo_value : String) :
    (get_rows_to_compute_direction db source signal geo_type time_value geo_value).Perm
        ((db.filter fun r =>
            decide (windowMatch source signal geo_type time_value geo_value r)).map
          fun r => (r.key.time_value - time_value, r.value)) ∧
    (get_rows_to_compute_direction db source signal geo_type time_value geo_value).Sorted
        (fun a b => a.1 ≤ b.1) ∧
    ∀ p : Int × Int,
      p ∈ get_rows_to_compute_direction db source signal geo_type time_value geo_value ↔
        ∃ r ∈ db, windowMatch source signal geo_type time_value geo_value r ∧
          p = (r.key.time_value - time_value, r.value) := by
  refine ⟨?_, ?_, ?_⟩
  · exact (List.perm_insertionSort rowLE _).map _
  · have hs := List.sorted_insertionSort rowLE
      (db.filter fun r => decide (windowMatch source signal geo_type time_value geo_value r))
    exact List.Pairwise.map _ (fun a b h => Int.sub_le_sub_right h time_value) hs
  · intro p
    constructor
    · intro hp
      obtain ⟨r2, hr2, hfp⟩ := List.mem_map.mp hp
      have hr3 := (List.perm_insertionSort rowLE _).subset hr2
      obtain ⟨hmem, hcond⟩ := List.mem_filter.mp hr3
      exact ⟨r2, hmem, of_decide_eq_true hcond, hfp.symm⟩
    · rintro ⟨r2, hmem, hcond, rfl⟩
      apply List.mem_map.mpr
      refine ⟨r2, ?_, rfl⟩
      exact (List.perm_insertionSort rowLE _).mem_iff.mpr
        (List.mem_filter.mpr ⟨hmem, decide_eq_true hcond⟩)

/-! Helper lemmas for the staleness queries. -/

/-- In the windowed support join every row joins with itself (offset 0). -/
theorem self_mem_windowRows {db : List Row} {c : Row} (hc : c ∈ db) :
    c ∈ windowRows db c := by
  unfold windowRows
  refine List.mem_filter.mpr ⟨hc, decide_eq_true ?_⟩
  exact ⟨⟨rfl, rfl, rfl, rfl, rfl⟩, by omega, by omega⟩

theorem mem_staleRowCandidates {db : List Row} {s : StaleRowResult} :
    s ∈ staleRowCandidates db ↔ ∃ c ∈ db, isStaleRow db c = true ∧
      s = { key := c.key, timestamp2 := c.timestamp2,
            max_timestamp1 := maxT1 (windowRows db c),
            support := (windowRows db c).length } := by
  unfold staleRowCandidates
  constructor
  · intro hs
    obtain ⟨c, hcf, rfl⟩ := List.mem_map.mp hs
    obtain ⟨hcdb, hstale⟩ := List.mem_filter.mp hcf
    exact ⟨c, hcdb, hstale, rfl⟩
  · rintro ⟨c, hcdb, hstale, rfl⟩
    exact List.mem_map.mpr ⟨c, List.mem_filter.mpr ⟨hcdb, hstale⟩, rfl⟩

/-- When the candidate set fits within the 10,000-row cap, the random order does not
affect membership in the query result. -/
theorem mem_stale_result {db : List Row} {shuffle : List StaleRowResult → List StaleRowResult}
    (hshuffle : ∀ l, (shuffle l).Perm l)
    (hfit : (staleRowCandidates db).length ≤ 10000) {s : StaleRowResult} :
    s ∈ get_rows_with_stale_direction db shuffle ↔ s ∈ staleRowCandidates db := by
  unfold get_rows_with_stale_direction
  rw [List.take_of_length_le (by rw [(hshuffle _).length_eq]; exact hfit)]
  exact (hshuffle _).mem_iff

/-- C1: a day-type row `c` appears in `get_rows_with_stale_direction` exactly when some
same-series row lies at offset 0..6 days before it and the maximal `timestamp1` over
those rows strictly exceeds `c.timestamp2` (under key uniqueness, with the candidate
set within the 10,000-row cap and the random ordering a permutation). -/
theorem stale_rows_membership (db : List Row)
    (shuffle : List StaleRowResult → List StaleRowResult)
    (hshuffle : ∀ l, (shuffle l).Perm l)
    (hfit : (staleRowCandidates db).length ≤ 10000)
    (hkeys : (db.map Row.key).Nodup)
    (c : Row) (hc : c ∈ db) (hday : c.key.time_type = "day") :
    (∃ s ∈ get_rows_with_stale_direction db shuffle, s.key = c.key) ↔
      ((∃ d ∈ db, sameSeries c.key d.key ∧ 0 ≤ c.key.time_value - d.key.time_value ∧
          c.key.time_value - d.key.time_value ≤ 6) ∧
        c.timestamp2 < maxT1 (windowRows db c)) := by
  constructor
  · rintro ⟨s, hs, hskey⟩
    rw [mem_stale_result hshuffle hfit] at hs
    obtain ⟨c2, hc2db, hstale, rfl⟩ := mem_staleRowCandidates.mp hs
    have hceq : c2 = c := List.inj_on_of_nodup_map hkeys hc2db hc hskey
    subst hceq
    have hprop : c2.key.time_type = "day" ∧ c2.timestamp2 < maxT1 (windowRows db c2) := by
      simpa [isStaleRow] using hstale
    exact ⟨⟨c2, hc2db, ⟨rfl, rfl, rfl, rfl, rfl⟩, by omega, by omega⟩, hprop.2⟩
  · rintro ⟨-, hmax⟩
    refine ⟨{ key := c.key, timestamp2 := c.timestamp2,
              max_timestamp1 := maxT1 (windowRows db c),
              support := (windowRows db c).length }, ?_, rfl⟩
    rw [mem_stale_result hshuffle hfit]
    exact mem_staleRowCandidates.mpr
      ⟨c, hc, by simp only [isStaleRow, decide_eq_true_eq]; exact ⟨hday, hmax⟩, rfl⟩

/-- C1 witness: the stale one-row store, with the identity permutation. -/
theorem stale_rows_membership_witness :
    (∃ s ∈ get_rows_with_stale_direction witDb id, s.key = witRow.key) ↔
      ((∃ d ∈ witDb, sameSeries witRow.key d.key ∧
          0 ≤ witRow.key.time_value - d.key.time_value ∧
          witRow.key.time_value - d.key.time_value ≤ 6) ∧
        witRow.timestamp2 < maxT1 (windowRows witDb witRow)) :=
  stale_rows_membership witDb id (fun l => List.Perm.refl l) (by decide) (by decide) witRow
    (by decide) (by decide)

/-- C10: every result row of the stale-row query has support count at least 1 (each
row joins with itself), and a day-type row whose own `timestamp1` exceeds its
`timestamp2` is reported stale even without any other same-series neighbor. -/
theorem stale_support_spec (db : List Row)
    (shuffle : List StaleRowResult → List StaleRowResult)
    (hshuffle : ∀ l, (shuffle l).Perm l)
    (hfit : (staleRowCandidates db).length ≤ 10000)
    (c : Row) (hc : c ∈ db) (hday : c.key.time_type = "day")
    (hown : c.timestamp2 < c.timestamp1) :
    (∀ s ∈ get_rows_with_stale_direction db shuffle, 1 ≤ s.support) ∧
    ∃ s ∈ get_rows_with_stale_direction db shuffle, s.key = c.key := by
  constructor
  · intro s hs
    rw [mem_stale_result hshuffle hfit] at hs
    obtain ⟨c2, hc2db, hstale, rfl⟩ := mem_staleRowCandidates.mp hs
    exact List.length_pos_of_mem (self_mem_windowRows hc2db)
  · have hmax : c.timestamp2 < maxT1 (windowRows db c) :=
      Nat.lt_of_lt_of_le hown (le_maxT1_of_mem (self_mem_windowRows hc))
    refine ⟨{ key := c.key, timestamp2 := c.timestamp2,
              max_timestamp1 := maxT1 (windowRows db c),
              support := (windowRows db c).length }, ?_, rfl⟩
    rw [mem_stale_result hshuffle hfit]
    exact mem_staleRowCandidates.mpr
      ⟨c, hc, by simp only [isStaleRow, decide_eq_true_eq]; exact ⟨hday, hmax⟩, rfl⟩

/-- C10 witness: the one-row store, whose single row supports itself. -/
theorem stale_support_witness :
    (∀ s ∈ get_rows_with_stale_direction witDb id, 1 ≤ s.support) ∧
    ∃ s ∈ get_rows_with_stale_direction witDb id, s.key = witRow.key :=
  stale_support_spec witDb id (fun l => List.Perm.refl l) (by decide) witRow (by decide)
    (by decide) (by decide)

/-- The `GROUP BY` group of the canonical day-type group key of a series is exactly
the series' day-type row set. -/
theorem groupRows_eq_seriesDayRows (db : List Row) (k : SeriesKey) :
    groupRows db ⟨k.source, k.signal, "day", k.geo_type, k.geo_value⟩ =
      seriesDayRows db k := by
  unfold groupRows dayRows seriesDayRows
  rw [List.filter_filter]
  apply List.filter_congr
  intro r _
  rw [← Bool.decide_and, decide_eq_decide]
  unfold groupKeyOf
  rw [GroupKey.mk.injEq]
  constructor
  · rintro ⟨⟨h1, h2, h3, h4, h5⟩, h6⟩
    exact ⟨h6, h1, h2, h4, h5⟩
  · rintro ⟨h6, h1, h2, h4, h5⟩
    exact ⟨⟨h1, h2, h6, h4, h5⟩, h6⟩

/-- The canonical day-type group key of a series occurs among the grouped keys
exactly when the series has a day-type row. -/
theorem group_mem_iff (db : List Row) (k : SeriesKey) :
    (⟨k.source, k.signal, "day", k.geo_type, k.geo_value⟩ : GroupKey) ∈
        ((dayRows db).map groupKeyOf).dedup ↔ seriesDayRows db k ≠ [] := by
  rw [List.mem_dedup, List.mem_map]
  constructor
  · rintro ⟨r, hr, hgk⟩
    obtain ⟨hrdb, hday⟩ := List.mem_filter.mp hr
    have hday2 : r.key.time_type = "day" := of_decide_eq_true hday
    unfold groupKeyOf at hgk
    rw [GroupKey.mk.injEq] at hgk
    have : r ∈ seriesDayRows db k := by
      refine List.mem_filter.mpr ⟨hrdb, decide_eq_true ?_⟩
      exact ⟨hday2, hgk.1, hgk.2.1, hgk.2.2.2.1, hgk.2.2.2.2⟩
    exact List.ne_nil_of_mem this
  · intro hne
    obtain ⟨r, hr⟩ := List.exists_mem_of_ne_nil _ hne
    obtain ⟨hrdb, hcond⟩ := List.mem_filter.mp hr
    obtain ⟨hday, hsrc, hsig, hgt, hgv⟩ := of_decide_eq_true hcond
    refine ⟨r, List.mem_filter.mpr ⟨hrdb, decide_eq_true hday⟩, ?_⟩
    unfold groupKeyOf
    rw [GroupKey.mk.injEq]
    exact ⟨hsrc, hsig, hday, hgt, hgv⟩

/-- C2 counterexample: in a two-row series with timestamps (10,10) and (5,5) no row
has `timestamp1 > timestamp2`, yet the series is returned by
`get_keys_with_potentially_stale_direction` because `MAX(timestamp1) = 10 >
5 = MIN(timestamp2)` across the series; the claimed equivalence is therefore false
at this store. -/
theorem stale_series_claim_cex :
    (∃ s ∈ get_keys_with_potentially_stale_direction cexDb,
        s.source = cexRowA.key.source ∧ s.signal = cexRowA.key.signal ∧
        s.geo_type = cexRowA.key.geo_type ∧ s.geo_value = cexRowA.key.geo_value) ∧
    (∀ r ∈ cexDb, ¬ r.timestamp2 < r.timestamp1) ∧
    ¬ ((∃ s ∈ get_keys_with_potentially_stale_direction cexDb,
          s.source = cexRowA.key.source ∧ s.signal = cexRowA.key.signal ∧
          s.geo_type = cexRowA.key.geo_type ∧ s.geo_value = cexRowA.key.geo_value) ↔
        ∃ r ∈ seriesDayRows cexDb
          ⟨cexRowA.key.source, cexRowA.key.signal, cexRowA.key.geo_type,
            cexRowA.key.geo_value⟩, r.timestamp2 < r.timestamp1) := by
  decide

/-- C2 (amended): a series is returned by `get_keys_with_potentially_stale_direction`
iff it has a day-type row and `MAX(timestamp1) > MIN(timestamp2)` over its day-type
rows; the existence of a single row with `timestamp1 > timestamp2` is sufficient but
not necessary. -/
theorem stale_series_minmax_spec (db : List Row) (k : SeriesKey) :
    ((∃ s ∈ get_keys_with_potentially_stale_direction db,
        s.source = k.source ∧ s.signal = k.signal ∧ s.geo_type = k.geo_type ∧
        s.geo_value = k.geo_value) ↔
      (seriesDayRows db k ≠ [] ∧
        minT2 (seriesDayRows db k) < maxT1 (seriesDayRows db k))) ∧
    ((∃ r ∈ seriesDayRows db k, r.timestamp2 < r.timestamp1) →
      ∃ s ∈ get_keys_with_potentially_stale_direction db,
        s.source = k.source ∧ s.signal = k.signal ∧ s.geo_type = k.geo_type ∧
        s.geo_value = k.geo_value) := by
  have hg := groupRows_eq_seriesDayRows db k
  have hiff : (∃ s ∈ get_keys_with_potentially_stale_direction db,
      s.source = k.source ∧ s.signal = k.signal ∧ s.geo_type = k.geo_type ∧
      s.geo_value = k.geo_value) ↔
      (seriesDayRows db k ≠ [] ∧
        minT2 (seriesDayRows db k) < maxT1 (seriesDayRows db k)) := by
    constructor
    · rintro ⟨s, hs, h1, h2, h3, h4⟩
      unfold get_keys_with_potentially_stale_direction at hs
      obtain ⟨g, hgf, rfl⟩ := List.mem_map.mp hs
      obtain ⟨hgd, hcond⟩ := List.mem_filter.mp hgf
      have hgday : g.time_type = "day" := by
        obtain ⟨r, hr, hgk⟩ := List.mem_map.mp (List.mem_dedup.mp hgd)
        obtain ⟨-, hday⟩ := List.mem_filter.mp hr
        rw [← hgk]
        exact of_decide_eq_true hday
      obtain ⟨gs, gsig, gtt, ggt, ggv⟩ := g
      dsimp at h1 h2 h3 h4 hgday
      subst h1; subst h2; subst h3; subst h4; subst hgday
      rw [hg] at hcond
      refine ⟨(group_mem_iff db k).mp ?_, of_decide_eq_true hcond⟩
      exact hgd
    · rintro ⟨hne, hlt⟩
      have hmem :
          ({ source := k.source, signal := k.signal, geo_type := k.geo_type,
             geo_value := k.geo_value,
             max_timestamp1 :=
               maxT1 (groupRows db ⟨k.source, k.signal, "day", k.geo_type, k.geo_value⟩),
             min_timestamp2 :=
               minT2 (groupRows db ⟨k.source, k.signal, "day", k.geo_type, k.geo_value⟩),
             min_day :=
               minDay (groupRows db ⟨k.source, k.signal, "day", k.geo_type, k.geo_value⟩),
             max_day :=
               maxDay (groupRows db ⟨k.source, k.signal, "day", k.geo_type, k.geo_value⟩),
             series_length :=
               (groupRows db ⟨k.source, k.signal, "day", k.geo_type, k.geo_value⟩).length } :
            SeriesResult) ∈ get_keys_with_potentially_stale_direction db := by
        unfold get_keys_with_potentially_stale_direction
        apply List.mem_map.mpr
        refine ⟨⟨k.source, k.signal, "day", k.geo_type, k.geo_value⟩, ?_, rfl⟩
        apply List.mem_filter.mpr
        refine ⟨(group_mem_iff db k).mpr hne, decide_eq_true ?_⟩
        rw [hg]
        exact hlt
      exact ⟨_, hmem, rfl, rfl, rfl, rfl⟩
  refine ⟨hiff, fun h => ?_⟩
  obtain ⟨r, hr, hlt⟩ := h
  exact hiff.mpr ⟨List.ne_nil_of_mem hr,
    Nat.lt_of_le_of_lt (minT2_le_of_mem hr)
      (Nat.lt_of_lt_of_le hlt (le_maxT1_of_mem hr))⟩

end Covidcast







